import Mathlib

/-!
Shallow embedding of `udmurtwrapper.py` (udmcorpus-wrapper): a client for an
Udmurt dictionary / text-corpus HTTP API.

The upstream HTTP service, the HTML-to-text stripper (BeautifulSoup) and the
morphological analyzer are external collaborators; they are modelled as
function parameters (`up`, `strip`, `analyzerLemma`).  Network requests are
made observable: every embedded operation additionally returns the ordered
list of request payloads it issued.  The unbounded `while` loop of
`_fetch_texts` is embedded with an explicit fuel argument; running out of
fuel returns `none` in the page component (the Python loop would still be
running), while the request log made so far is always returned.
-/

namespace UdmCorpus

/-- One item of the `content` array of a search response page; only its
`body` field is ever read by the wrapper. -/
structure ContentItem where
  body : String
deriving DecidableEq

/-- One page of the upstream `/api/public/search` response:
`{totalElements, last, numberOfElements, empty, content}`. -/
structure SearchPage where
  totalElements : Nat
  last : Bool
  numberOfElements : Nat
  empty : Bool
  content : List ContentItem
deriving DecidableEq

/-- The 13 fixed grammatical-filter fields of the search payload, all sent as
empty arrays by the wrapper. -/
structure GrammarFilter where
  partOfSpeech : List String := []
  lexicalClasses : List String := []
  attributivizers : List String := []
  numerals : List String := []
  number : List String := []
  coreCases : List String := []
  spatialCases : List String := []
  spatialCases2 : List String := []
  possessiveness : List String := []
  tense_mood : List String := []
  verbalDerivation : List String := []
  nonFiniteForms : List String := []
  imperatives : List String := []
deriving DecidableEq

/-- The constant `type` sub-object of the search payload. -/
structure CorpusType where
  value : Nat
  title : String
  name : String
deriving DecidableEq

/-- Full request body sent to `POST /api/public/search`, mirroring the dict
built by `_build_search_payload`. -/
structure SearchPayload where
  searchMode : Nat
  word : Option String
  page : Nat
  perPage : Nat
  fullcompare : Bool
  text : Option String
  title : String
  gr : GrammarFilter
  gloss : List String
  startYear : Option Nat
  endYear : Option Nat
  theme : Option String
  type : CorpusType
  authors : Option String
  rows : Nat
  compiledgr : String
  compiledgloss : String
deriving DecidableEq

/-- The `**kwargs` accepted by `_build_search_payload`: a field is `none`
when the caller did not pass the keyword (so `kwargs.get` falls back to its
default). -/
structure SearchKwargs where
  full_compare : Bool := false
  full_text_mode : Bool := false
  page : Option Nat := none
  per_page : Option Nat := none
  rows_count : Option Nat := none

/-- Embedding of `UdmurtCorpus._build_search_payload`. -/
def _build_search_payload (text : String) (kwargs : SearchKwargs) : SearchPayload :=
  let search_mode : Nat := if kwargs.full_text_mode then 1 else 0
  let word : Option String := if kwargs.full_text_mode then none else some text
  let text_param : Option String := if kwargs.full_text_mode then some text else none
  { searchMode := search_mode
    word := word
    page := kwargs.page.getD 1
    perPage := kwargs.per_page.getD 10
    fullcompare := kwargs.full_compare
    text := text_param
    title := ""
    gr := {}
    gloss := []
    startYear := none
    endYear := none
    theme := none
    type := { value := 0, title := "Корпус литературных текстов", name := "CORPUS" }
    authors := none
    rows := kwargs.rows_count.getD 0
    compiledgr := "Грамматика не выбрана"
    compiledgloss := "Глоссы не выбраны" }

/-- The merged search parameters, i.e. `DEFAULT_PARAMS` after
`search_params.update(params)`. -/
structure SearchParams where
  count : Nat
  all_texts : Bool
  return_full_json : Bool
  full_compare : Bool
  full_text_mode : Bool
  page : Nat
  per_page : Nat
  rows_count : Nat
deriving DecidableEq

/-- Embedding of `UdmurtCorpus.DEFAULT_PARAMS`. -/
def DEFAULT_PARAMS : SearchParams :=
  { count := 10
    all_texts := false
    return_full_json := false
    full_compare := false
    full_text_mode := false
    page := 1
    per_page := 10
    rows_count := 0 }

/-- The caller-supplied `params` dict of `get_texts`: a field is `none` when
the key is absent (so the `DEFAULT_PARAMS` value survives the merge). -/
structure UserParams where
  count : Option Nat := none
  all_texts : Option Bool := none
  return_full_json : Option Bool := none
  full_compare : Option Bool := none
  full_text_mode : Option Bool := none
  page : Option Nat := none
  per_page : Option Nat := none
  rows_count : Option Nat := none

/-- `search_params = DEFAULT_PARAMS.copy(); search_params.update(params)`. -/
def mergeParams (p : UserParams) : SearchParams :=
  { count := p.count.getD DEFAULT_PARAMS.count
    all_texts := p.all_texts.getD DEFAULT_PARAMS.all_texts
    return_full_json := p.return_full_json.getD DEFAULT_PARAMS.return_full_json
    full_compare := p.full_compare.getD DEFAULT_PARAMS.full_compare
    full_text_mode := p.full_text_mode.getD DEFAULT_PARAMS.full_text_mode
    page := p.page.getD DEFAULT_PARAMS.page
    per_page := p.per_page.getD DEFAULT_PARAMS.per_page
    rows_count := p.rows_count.getD DEFAULT_PARAMS.rows_count }

/-- The `while curr_elements < count` loop of `_fetch_texts`, with explicit
fuel.  Returns the accumulated pages (`none` when fuel ran out while the
Python loop would continue) together with the full request log. -/
def fetchLoop (up : SearchPayload → SearchPage) (text : String)
    (full_compare full_text_mode : Bool) (total_elements count : Nat) :
    Nat → Nat → Nat → List SearchPage → List SearchPayload →
    Option (List SearchPage) × List SearchPayload
  | 0, curr_elements, _, results, log =>
    if curr_elements < count then (none, log) else (some results, log)
  | fuel + 1, curr_elements, curr_page, results, log =>
    if curr_elements < count then
      let payload := _build_search_payload text
        { full_compare := full_compare
          full_text_mode := full_text_mode
          page := some curr_page
          rows_count := some total_elements }
      let curr_res := up payload
      if curr_res.last then (some (results ++ [curr_res]), log ++ [payload])
      else
        fetchLoop up text full_compare full_text_mode total_elements count
          fuel (curr_elements + curr_res.numberOfElements) (curr_page + 1)
          (results ++ [curr_res]) (log ++ [payload])
    else (some results, log)

/-- Embedding of `UdmurtCorpus._fetch_texts`.  First component: `none` when
the pagination loop ran out of fuel, otherwise the `(results, count)` pair
the Python function returns.  Second component: the request payloads issued,
in order. -/
def _fetch_texts (up : SearchPayload → SearchPage) (text : String)
    (params : SearchParams) (fuel : Nat) :
    Option (List SearchPage × Nat) × List SearchPayload :=
  let firstPayload := _build_search_payload text
    { full_compare := params.full_compare
      full_text_mode := params.full_text_mode }
  let first_res := up firstPayload
  let total_elements := first_res.totalElements
  let is_last_page := first_res.last
  let number_of_elements := first_res.numberOfElements
  let is_empty := first_res.empty
  let count := params.count
  if is_empty then (some ([], count), [firstPayload])
  else if is_last_page then (some ([first_res], count), [firstPayload])
  else
    let count' := if params.all_texts then total_elements else count
    let loopRes := fetchLoop up text params.full_compare params.full_text_mode
      total_elements count' fuel number_of_elements 2 [first_res] [firstPayload]
    (loopRes.1.map (fun results => (results, count')), loopRes.2)

/-- Error raised by `get_texts`. -/
inductive TextsError where
  | textsNotFound
deriving DecidableEq

/-- Normal return value of `get_texts`: the raw page list when
`return_full_json` is set, otherwise the flattened text bodies. -/
inductive TextsResult where
  | full (pages : List SearchPage)
  | texts (bodies : List String)
deriving DecidableEq

/-- Embedding of `UdmurtCorpus.get_texts` (the request log is dropped here;
`_fetch_texts` exposes it).  `none` means the pagination loop ran out of
fuel. -/
def get_texts (up : SearchPayload → SearchPage) (text : String)
    (params : UserParams) (fuel : Nat) : Option (Except TextsError TextsResult) :=
  let search_params := mergeParams params
  match (_fetch_texts up text search_params fuel).1 with
  | none => none
  | some (results, new_count) =>
    if results.length = 0 then some (Except.error TextsError.textsNotFound)
    else if search_params.return_full_json then some (Except.ok (TextsResult.full results))
    else some (Except.ok (TextsResult.texts
      ((results.flatMap fun page => page.content.map ContentItem.body).take new_count)))

/-- The payload `_fetch_texts` sends for every page `k ≥ 2`: the page number
and the first page's `totalElements` echoed back as `rows`. -/
def subsPayload (text : String) (fc ftm : Bool) (te : Nat) (k : Nat) : SearchPayload :=
  _build_search_payload text
    { full_compare := fc, full_text_mode := ftm, page := some k, rows_count := some te }

/-- The payload `_fetch_texts` sends for the first page: no `page` and no
`rows_count` override. -/
def firstPagePayload (text : String) (fc ftm : Bool) : SearchPayload :=
  _build_search_payload text { full_compare := fc, full_text_mode := ftm }

/-- The payload `_fetch_texts` sends for page `k` (`k ≥ 1`). -/
def reqPayload (text : String) (fc ftm : Bool) (te : Nat) : Nat → SearchPayload
  | 1 => firstPagePayload text fc ftm
  | k => subsPayload text fc ftm te k

/-- The upstream response to the request for page `k`. -/
def pageResp (up : SearchPayload → SearchPage) (text : String) (fc ftm : Bool)
    (te : Nat) (k : Nat) : SearchPage :=
  up (reqPayload text fc ftm te k)

/-- The first page's response. -/
def firstResp (up : SearchPayload → SearchPage) (text : String) (fc ftm : Bool) :
    SearchPage :=
  up (firstPagePayload text fc ftm)

/-- The first page's `totalElements`, echoed back on every later request. -/
def firstTE (up : SearchPayload → SearchPage) (text : String) (fc ftm : Bool) : Nat :=
  (firstResp up text fc ftm).totalElements

/-- Accumulated `numberOfElements` over the responses to pages `1..m`. -/
def accElems (up : SearchPayload → SearchPage) (text : String) (fc ftm : Bool)
    (te : Nat) : Nat → Nat
  | 0 => 0
  | m + 1 => accElems up text fc ftm te m + (pageResp up text fc ftm te (m + 1)).numberOfElements

/-- Embedding of the `Language` dataclass. -/
structure Language where
  id : Nat
  code : String
deriving DecidableEq

/-- Embedding of `UdmurtDictionary.LANGUAGES` as a lookup function; `none`
models the `KeyError` a missing key raises. -/
def LANGUAGES (code : String) : Option Language :=
  if code = "udm" then some { id := 1, code := "udm" }
  else if code = "rus" then some { id := 2, code := "rus" }
  else none

/-- One item of a dictionary search response; the wrapper reads its `body`
(HTML) and `srcWord` fields. -/
structure DictItem where
  body : String
  srcWord : String
deriving DecidableEq

/-- A dictionary response: a JSON array, empty when the word is unknown. -/
abbrev DictResponse := List DictItem

/-- Errors raised by `get_word`: the `ValueError` for an unsupported
language and `WordNotFoundError`. -/
inductive WordError where
  | unsupportedLanguage
  | wordNotFound
deriving DecidableEq

/-- Normal return value of `get_word`: the raw response when
`return_full_json` is set, otherwise the processed translation strings. -/
inductive WordResult where
  | full (response : DictResponse)
  | translations (texts : List String)
deriving DecidableEq

/-- Python's `text.replace(chr, src)` for the one-character pattern `~`,
on the character-list view of strings: every occurrence of `~` is replaced
by `src`. -/
def replaceTildeChars (src : List Char) : List Char → List Char
  | [] => []
  | c :: cs => (if c = '~' then src else [c]) ++ replaceTildeChars src cs

/-- Embedding of `text.replace('~', src)`. -/
def replaceTildeStr (src : String) (text : String) : String :=
  String.mk (replaceTildeChars src.toList text.toList)

/-- Embedding of `UdmurtDictionary._process_response`.  `strip` models
`BeautifulSoup(html, "lxml").text`.  The `word` argument is carried exactly
as in the source, where it is likewise unused: replacement uses each item's
own `srcWord`. -/
def _process_response (strip : String → String) (response : DictResponse)
    (word : String) (replace_tilde : Bool) : List String :=
  response.map fun item =>
    let text := strip item.body
    if replace_tilde then replaceTildeStr item.srcWord text else text

/-- Embedding of `UdmurtDictionary.get_word` (without the `lru_cache`
decorator; see `get_word_cached`).  `up word id` models the response of
`POST dictionary/search` for `{"word": word, "lang": {"id": id}}`;
`analyzerLemma` models `udmurt_analyzer.analyze_words(word)[0].lemma`.
Besides the result it returns the `(word, lang_id)` request log.  The
`KeyError` of `LANGUAGES[lang]` is raised while building the request
payload, before any network call, and is turned into the
`unsupportedLanguage` error with an empty log. -/
def get_word (up : String → Nat → DictResponse) (analyzerLemma : String → String)
    (strip : String → String) (word : String) (lang : String)
    (replace_tilde : Bool) (return_full_json : Bool)
    (lemmatize_if_not_found : Bool) :
    Except WordError WordResult × List (String × Nat) :=
  match LANGUAGES lang with
  | none => (Except.error WordError.unsupportedLanguage, [])
  | some language =>
    let response := up word language.id
    if response.isEmpty then
      if lemmatize_if_not_found then
        let new_word := analyzerLemma word
        if new_word ≠ "" then
          let response2 := up new_word language.id
          let log := [(word, language.id), (new_word, language.id)]
          if response2.isEmpty then (Except.error WordError.wordNotFound, log)
          else if return_full_json then (Except.ok (WordResult.full response2), log)
          else
            (Except.ok (WordResult.translations
              (_process_response strip response2 new_word replace_tilde)), log)
        else (Except.error WordError.wordNotFound, [(word, language.id)])
      else (Except.error WordError.wordNotFound, [(word, language.id)])
    else if return_full_json then (Except.ok (WordResult.full response), [(word, language.id)])
    else
      (Except.ok (WordResult.translations
        (_process_response strip response word replace_tilde)), [(word, language.id)])

/-- The key of the `lru_cache` on `get_word`: the full argument tuple. -/
structure WordKey where
  word : String
  lang : String
  replace_tilde : Bool
  return_full_json : Bool
  lemmatize_if_not_found : Bool
deriving DecidableEq

/-- The memoization cache, most-recently-used first.  Only successful
results are stored: `functools.lru_cache` does not cache raised
exceptions. -/
abbrev Cache := List (WordKey × WordResult)

/-- `maxsize` of the `lru_cache` decorator. -/
def CACHE_MAXSIZE : Nat := 128

/-- Cache lookup by key. -/
def cacheLookup (c : Cache) (k : WordKey) : Option WordResult :=
  (c.find? fun e => decide (e.1 = k)).map (fun e => e.2)

/-- On a hit, `lru_cache` marks the entry most recently used. -/
def cacheTouch (c : Cache) (k : WordKey) : Cache :=
  match cacheLookup c k with
  | some v => (k, v) :: c.eraseP (fun e => decide (e.1 = k))
  | none => c

/-- Store a fresh result, evicting the least recently used entry beyond
capacity. -/
def cacheInsert (c : Cache) (k : WordKey) (v : WordResult) : Cache :=
  ((k, v) :: c).take CACHE_MAXSIZE

/-- `get_word` as decorated with `@lru_cache(maxsize=128)`: explicit cache
state threaded through the call.  Returns the result, the upstream requests
issued by this call, and the new cache state. -/
def get_word_cached (up : String → Nat → DictResponse)
    (analyzerLemma : String → String) (strip : String → String)
    (c : Cache) (k : WordKey) :
    Except WordError WordResult × List (String × Nat) × Cache :=
  match cacheLookup c k with
  | some v => (Except.ok v, [], cacheTouch c k)
  | none =>
    match get_word up analyzerLemma strip k.word k.lang k.replace_tilde
        k.return_full_json k.lemmatize_if_not_found with
    | (Except.ok v, log) => (Except.ok v, log, cacheInsert c k v)
    | (Except.error e, log) => (Except.error e, log, c)

end UdmCorpus

deriving instance DecidableEq for Except

namespace UdmCorpus

/-! ### Helper lemmas: tilde replacement -/

lemma not_mem_replaceTildeChars (src : List Char) (h : '~' ∉ src) :
    ∀ l, '~' ∉ replaceTildeChars src l := by
  intro l
  induction l with
  | nil => simp [replaceTildeChars]
  | cons c cs ih =>
    simp only [replaceTildeChars, List.mem_append]
    rintro (hm | hm)
    · by_cases hc : c = '~'
      · rw [if_pos hc] at hm; exact h hm
      · rw [if_neg hc] at hm
        simp only [List.mem_singleton] at hm
        exact hc hm.symm
    · exact ih hm

lemma not_mem_toList_replaceTildeStr (src text : String) (h : '~' ∉ src.toList) :
    '~' ∉ (replaceTildeStr src text).toList :=
  not_mem_replaceTildeChars src.toList h text.toList

/-! ### Helper lemmas: the lookup cache -/

lemma cacheLookup_cons_self (c : Cache) (k : WordKey) (v : WordResult) :
    cacheLookup ((k, v) :: c) k = some v := by
  simp [cacheLookup, List.find?_cons_of_pos]

lemma cacheLookup_insert (c : Cache) (k : WordKey) (v : WordResult) :
    cacheLookup (cacheInsert c k v) k = some v := by
  have h : CACHE_MAXSIZE = 127 + 1 := rfl
  unfold cacheInsert
  rw [h, List.take_succ_cons]
  exact cacheLookup_cons_self _ _ _

lemma cacheLookup_touch (c : Cache) (k : WordKey) :
    cacheLookup (cacheTouch c k) k = cacheLookup c k := by
  unfold cacheTouch
  cases hc : cacheLookup c k with
  | none => simpa using hc
  | some v => exact cacheLookup_cons_self _ _ _

/-- The log of a `get_word` call always starts with the original word and
the resolved language id. -/
lemma get_word_log_head (up : String → Nat → DictResponse)
    (al strip : String → String) (word lang : String) (rt rj lnf : Bool)
    (L : Language) (hL : LANGUAGES lang = some L) :
    (get_word up al strip word lang rt rj lnf).2.head? = some (word, L.id) := by
  simp only [get_word, hL]
  split_ifs <;> rfl

/-! ### Concrete instances used by witnesses and counterexamples -/

/-- A dictionary upstream that never finds anything. -/
def emptyDictUp : String → Nat → DictResponse := fun _ _ => []

/-- An analyzer returning the empty lemma. -/
def emptyAl : String → String := fun _ => ""

/-- A dictionary upstream knowing one word, whose entry holds a tilde. -/
def wordUp : String → Nat → DictResponse :=
  fun w _ => if w = "ukno" then [{ body := "x~y", srcWord := "s7" }] else []

/-- A dictionary upstream that only knows the lemma `lem8`. -/
def tildeUp : String → Nat → DictResponse :=
  fun w _ => if w = "lem8" then [{ body := "p~q", srcWord := "s8" }] else []

/-- An analyzer mapping every word to the lemma `lem8`. -/
def tildeAl : String → String := fun _ => "lem8"

/-- A dictionary upstream that finds every word. -/
def constUp : String → Nat → DictResponse := fun _ _ => [{ body := "b", srcWord := "s" }]

/-- A fixed cache key. -/
def constKey : WordKey :=
  { word := "w", lang := "udm", replace_tilde := false, return_full_json := false,
    lemmatize_if_not_found := false }

/-! ### C5 -/

/-- C5: for every language code outside the registry, `get_word` fails with
the unsupported-language error and issues no upstream request (empty log);
`udm` and `rus` resolve to the stable ids 1 and 2, and for them the lookup
proceeds (the first request carries the resolved id). -/
theorem unsupported_language_rejected (up : String → Nat → DictResponse)
    (al strip : String → String) (word lang : String) (rt rj lnf : Bool)
    (h1 : lang ≠ "udm") (h2 : lang ≠ "rus") :
    get_word up al strip word lang rt rj lnf
        = (Except.error WordError.unsupportedLanguage, []) ∧
    LANGUAGES "udm" = some { id := 1, code := "udm" } ∧
    LANGUAGES "rus" = some { id := 2, code := "rus" } ∧
    (get_word up al strip word "udm" rt rj lnf).2.head? = some (word, 1) ∧
    (get_word up al strip word "rus" rt rj lnf).2.head? = some (word, 2) := by
  refine ⟨?_, rfl, rfl, ?_, ?_⟩
  · simp [get_word, LANGUAGES, h1, h2]
  · exact get_word_log_head up al strip word "udm" rt rj lnf _ rfl
  · exact get_word_log_head up al strip word "rus" rt rj lnf _ rfl

/-- C5 witness at the concrete language code `xx`. -/
theorem unsupported_language_rejected_witness :
    get_word emptyDictUp emptyAl id "w" "xx" false false false
        = (Except.error WordError.unsupportedLanguage, []) ∧
    LANGUAGES "udm" = some { id := 1, code := "udm" } ∧
    LANGUAGES "rus" = some { id := 2, code := "rus" } ∧
    (get_word emptyDictUp emptyAl id "w" "udm" false false false).2.head? = some ("w", 1) ∧
    (get_word emptyDictUp emptyAl id "w" "rus" false false false).2.head? = some ("w", 2) :=
  unsupported_language_rejected emptyDictUp emptyAl id "w" "xx" false false false
    (by decide) (by decide)

/-! ### C6 -/

/-- C6: when the first dictionary response is empty, `get_word` raises
`WordNotFoundError` after one request if `lemmatize_if_not_found` is off,
raises it without a second request if the lemma is empty, and otherwise
issues exactly one retry with the lemma, failing iff the retry is also
empty; every invocation issues at most two upstream requests. -/
theorem lemma_fallback_requests (up : String → Nat → DictResponse)
    (al strip : String → String) (word lang : String) (rt rj lnf : Bool)
    (L : Language) (hL : LANGUAGES lang = some L)
    (hempty : up word L.id = []) :
    (lnf = false →
      get_word up al strip word lang rt rj lnf
        = (Except.error WordError.wordNotFound, [(word, L.id)])) ∧
    (lnf = true → al word = "" →
      get_word up al strip word lang rt rj lnf
        = (Except.error WordError.wordNotFound, [(word, L.id)])) ∧
    (lnf = true → al word ≠ "" →
      (get_word up al strip word lang rt rj lnf).2 = [(word, L.id), (al word, L.id)] ∧
      ((get_word up al strip word lang rt rj lnf).1 = Except.error WordError.wordNotFound
        ↔ up (al word) L.id = [])) ∧
    (∀ w l a b c, ((get_word up al strip w l a b c).2).length ≤ 2) := by
  refine ⟨?_, ?_, ?_, ?_⟩
  · intro h
    simp [get_word, hL, hempty, h]
  · intro h h2
    simp [get_word, hL, hempty, h, h2]
  · intro h h2
    by_cases hr : up (al word) L.id = []
    · constructor
      · simp [get_word, hL, hempty, h, h2, hr]
      · simp [get_word, hL, hempty, h, h2, hr]
    · constructor
      · by_cases hj : rj <;> simp [get_word, hL, hempty, h, h2, hr, hj]
      · by_cases hj : rj <;> simp [get_word, hL, hempty, h, h2, hr, hj]
  · intro w l a b c
    rcases hl : LANGUAGES l with _ | L'
    · simp [get_word, hl]
    · simp only [get_word, hl]
      split_ifs <;> simp

/-- C6 witness: empty first response, fallback off, language `udm`. -/
theorem lemma_fallback_requests_witness :
    (false = false →
      get_word emptyDictUp emptyAl id "w" "udm" false false false
        = (Except.error WordError.wordNotFound, [("w", (1 : Nat))])) ∧
    (false = true → emptyAl "w" = "" →
      get_word emptyDictUp emptyAl id "w" "udm" false false false
        = (Except.error WordError.wordNotFound, [("w", (1 : Nat))])) ∧
    (false = true → emptyAl "w" ≠ "" →
      (get_word emptyDictUp emptyAl id "w" "udm" false false false).2
          = [("w", (1 : Nat)), (emptyAl "w", (1 : Nat))] ∧
      ((get_word emptyDictUp emptyAl id "w" "udm" false false false).1
          = Except.error WordError.wordNotFound
        ↔ emptyDictUp (emptyAl "w") 1 = [])) ∧
    (∀ w l a b c, ((get_word emptyDictUp emptyAl id w l a b c).2).length ≤ 2) :=
  lemma_fallback_requests emptyDictUp emptyAl id "w" "udm" false false false
    { id := 1, code := "udm" } rfl rfl

/-! ### C7 -/

/-- C7: a non-empty first response with `return_full_json` off yields one
string per item in order — the stripped body, with every `~` replaced by
that item's own `srcWord` when `replace_tilde` is on — so if every item's
`srcWord` is tilde-free, no returned string contains `~`. -/
theorem processed_items_in_order (up : String → Nat → DictResponse)
    (al strip : String → String) (word lang : String) (rt lnf : Bool)
    (L : Language) (resp : DictResponse)
    (hL : LANGUAGES lang = some L)
    (hresp : up word L.id = resp)
    (hne : resp ≠ []) :
    get_word up al strip word lang rt false lnf
      = (Except.ok (WordResult.translations (resp.map fun item =>
          if rt then replaceTildeStr item.srcWord (strip item.body)
          else strip item.body)), [(word, L.id)]) ∧
    (rt = true → (∀ item ∈ resp, '~' ∉ item.srcWord.toList) →
      ∀ s ∈ resp.map (fun item =>
          if rt then replaceTildeStr item.srcWord (strip item.body)
          else strip item.body), '~' ∉ s.toList) := by
  have h0 : resp.isEmpty = false := by simp [hne]
  constructor
  · simp [get_word, hL, hresp, h0, _process_response]
  · intro hrt hsrc s hs
    simp only [List.mem_map] at hs
    obtain ⟨item, hitem, rfl⟩ := hs
    rw [hrt, if_pos rfl]
    exact not_mem_toList_replaceTildeStr _ _ (hsrc item hitem)

/-- C7 witness: one-item response with a tilde in the body and a tilde-free
`srcWord`. -/
theorem processed_items_in_order_witness :
    get_word wordUp emptyAl id "ukno" "udm" true false false
      = (Except.ok (WordResult.translations
          (([{ body := "x~y", srcWord := "s7" }] : DictResponse).map fun item =>
            if true then replaceTildeStr item.srcWord (id item.body)
            else id item.body)), [("ukno", (1 : Nat))]) ∧
    (true = true →
      (∀ item ∈ ([{ body := "x~y", srcWord := "s7" }] : DictResponse),
        '~' ∉ item.srcWord.toList) →
      ∀ s ∈ ([{ body := "x~y", srcWord := "s7" }] : DictResponse).map (fun item =>
          if true then replaceTildeStr item.srcWord (id item.body)
          else id item.body), '~' ∉ s.toList) :=
  processed_items_in_order wordUp emptyAl id "ukno" "udm" true false
    { id := 1, code := "udm" } [{ body := "x~y", srcWord := "s7" }] rfl rfl (by decide)

/-! ### Helper lemmas: the pagination loop -/

lemma reqPayload_of_two_le (text : String) (fc ftm : Bool) (te k : Nat) (h : 2 ≤ k) :
    reqPayload text fc ftm te k = subsPayload text fc ftm te k := by
  obtain ⟨q, rfl⟩ : ∃ q, k = q + 2 := ⟨k - 2, by omega⟩
  rfl

lemma fetchLoop_exit (up : SearchPayload → SearchPage) (text : String) (fc ftm : Bool)
    (te count fuel ce p : Nat) (acc : List SearchPage) (log : List SearchPayload)
    (hc : ¬ ce < count) :
    fetchLoop up text fc ftm te count fuel ce p acc log = (some acc, log) := by
  cases fuel <;> simp only [fetchLoop, if_neg hc]

lemma fetchLoop_step (up : SearchPayload → SearchPage) (text : String) (fc ftm : Bool)
    (te count fuel ce p : Nat) (acc : List SearchPage) (log : List SearchPayload)
    (hc : ce < count) :
    fetchLoop up text fc ftm te count (fuel + 1) ce p acc log =
      (if (up (subsPayload text fc ftm te p)).last
       then (some (acc ++ [up (subsPayload text fc ftm te p)]),
             log ++ [subsPayload text fc ftm te p])
       else fetchLoop up text fc ftm te count fuel
         (ce + (up (subsPayload text fc ftm te p)).numberOfElements) (p + 1)
         (acc ++ [up (subsPayload text fc ftm te p)])
         (log ++ [subsPayload text fc ftm te p])) := by
  simp only [fetchLoop, if_pos hc, subsPayload]

/-- The request log of the loop extends the accumulator with the payloads
for the consecutive pages `p, p+1, ...`. -/
lemma fetchLoop_log_shape (up : SearchPayload → SearchPage) (text : String)
    (fc ftm : Bool) (te count : Nat) :
    ∀ fuel ce p acc log, ∃ m,
      (fetchLoop up text fc ftm te count fuel ce p acc log).2
        = log ++ (List.range' p m).map (subsPayload text fc ftm te) := by
  intro fuel
  induction fuel with
  | zero =>
    intro ce p acc log
    refine ⟨0, ?_⟩
    by_cases hc : ce < count <;> simp [fetchLoop, hc]
  | succ f ih =>
    intro ce p acc log
    by_cases hc : ce < count
    · rw [fetchLoop_step up text fc ftm te count f ce p acc log hc]
      by_cases hl : (up (subsPayload text fc ftm te p)).last
      · refine ⟨1, ?_⟩
        simp [hl]
      · rw [if_neg hl]
        obtain ⟨m, hm⟩ := ih (ce + (up (subsPayload text fc ftm te p)).numberOfElements)
          (p + 1) (acc ++ [up (subsPayload text fc ftm te p)])
          (log ++ [subsPayload text fc ftm te p])
        refine ⟨m + 1, ?_⟩
        rw [hm, List.range'_succ, List.map_cons]
        simp
    · refine ⟨0, ?_⟩
      rw [fetchLoop_exit up text fc ftm te count (f + 1) ce p acc log hc]
      simp

/-- Whatever pages the loop returns extend its accumulator. -/
lemma fetchLoop_res_prefix (up : SearchPayload → SearchPage) (text : String)
    (fc ftm : Bool) (te count : Nat) :
    ∀ fuel ce p acc log res,
      (fetchLoop up text fc ftm te count fuel ce p acc log).1 = some res →
      ∃ tail, res = acc ++ tail := by
  intro fuel
  induction fuel with
  | zero =>
    intro ce p acc log res h
    by_cases hc : ce < count
    · simp [fetchLoop, hc] at h
    · rw [fetchLoop_exit up text fc ftm te count 0 ce p acc log hc] at h
      refine ⟨[], ?_⟩
      simp only [Option.some.injEq] at h
      simp [h.symm]
  | succ f ih =>
    intro ce p acc log res h
    by_cases hc : ce < count
    · rw [fetchLoop_step up text fc ftm te count f ce p acc log hc] at h
      by_cases hl : (up (subsPayload text fc ftm te p)).last
      · rw [if_pos hl] at h
        simp only [Option.some.injEq] at h
        exact ⟨[up (subsPayload text fc ftm te p)], h.symm⟩
      · rw [if_neg hl] at h
        obtain ⟨t, ht⟩ := ih _ _ _ _ _ h
        exact ⟨[up (subsPayload text fc ftm te p)] ++ t, by rw [ht, List.append_assoc]⟩
    · rw [fetchLoop_exit up text fc ftm te count (f + 1) ce p acc log hc] at h
      refine ⟨[], ?_⟩
      simp only [Option.some.injEq] at h
      simp [h.symm]

/-- `_fetch_texts` restated through the named wrappers `firstResp`,
`firstPagePayload`, `firstTE`; definitionally equal to the definition. -/
lemma fetch_texts_cases (up : SearchPayload → SearchPage) (text : String)
    (sp : SearchParams) (fuel : Nat) :
    _fetch_texts up text sp fuel =
      (if (firstResp up text sp.full_compare sp.full_text_mode).empty
       then (some ([], sp.count), [firstPagePayload text sp.full_compare sp.full_text_mode])
       else if (firstResp up text sp.full_compare sp.full_text_mode).last
       then (some ([firstResp up text sp.full_compare sp.full_text_mode], sp.count),
             [firstPagePayload text sp.full_compare sp.full_text_mode])
       else
         ((fetchLoop up text sp.full_compare sp.full_text_mode
             (firstTE up text sp.full_compare sp.full_text_mode)
             (if sp.all_texts then firstTE up text sp.full_compare sp.full_text_mode
              else sp.count)
             fuel (firstResp up text sp.full_compare sp.full_text_mode).numberOfElements 2
             [firstResp up text sp.full_compare sp.full_text_mode]
             [firstPagePayload text sp.full_compare sp.full_text_mode]).1.map
            (fun results => (results,
              if sp.all_texts then firstTE up text sp.full_compare sp.full_text_mode
              else sp.count)),
          (fetchLoop up text sp.full_compare sp.full_text_mode
             (firstTE up text sp.full_compare sp.full_text_mode)
             (if sp.all_texts then firstTE up text sp.full_compare sp.full_text_mode
              else sp.count)
             fuel (firstResp up text sp.full_compare sp.full_text_mode).numberOfElements 2
             [firstResp up text sp.full_compare sp.full_text_mode]
             [firstPagePayload text sp.full_compare sp.full_text_mode]).2)) := rfl

/-- The full request log of `_fetch_texts` is exactly the payloads for the
consecutive pages `1..m`, for some `m ≥ 1`. -/
lemma fetch_texts_log (up : SearchPayload → SearchPage) (text : String)
    (sp : SearchParams) (fuel : Nat) :
    ∃ m, 1 ≤ m ∧ (_fetch_texts up text sp fuel).2
      = (List.range' 1 m).map
          (reqPayload text sp.full_compare sp.full_text_mode
            (firstTE up text sp.full_compare sp.full_text_mode)) := by
  rw [fetch_texts_cases]
  by_cases he : (firstResp up text sp.full_compare sp.full_text_mode).empty = true
  · rw [if_pos he]
    exact ⟨1, le_refl 1, by simp [reqPayload]⟩
  · rw [if_neg he]
    by_cases hl : (firstResp up text sp.full_compare sp.full_text_mode).last = true
    · rw [if_pos hl]
      exact ⟨1, le_refl 1, by simp [reqPayload]⟩
    · rw [if_neg hl]
      obtain ⟨m, hm⟩ := fetchLoop_log_shape up text sp.full_compare sp.full_text_mode
        (firstTE up text sp.full_compare sp.full_text_mode)
        (if sp.all_texts = true then firstTE up text sp.full_compare sp.full_text_mode
         else sp.count)
        fuel (firstResp up text sp.full_compare sp.full_text_mode).numberOfElements 2
        [firstResp up text sp.full_compare sp.full_text_mode]
        [firstPagePayload text sp.full_compare sp.full_text_mode]
      refine ⟨m + 1, by omega, ?_⟩
      have hmap : (List.range' 2 m).map
          (reqPayload text sp.full_compare sp.full_text_mode
            (firstTE up text sp.full_compare sp.full_text_mode))
          = (List.range' 2 m).map
            (subsPayload text sp.full_compare sp.full_text_mode
              (firstTE up text sp.full_compare sp.full_text_mode)) :=
        List.map_congr_left fun x hx =>
          reqPayload_of_two_le text sp.full_compare sp.full_text_mode _ x
            (List.mem_range'_1.mp hx).1
      rw [List.range'_succ, List.map_cons, hmap]
      simpa [reqPayload] using hm

/-- A last-page response with three items. -/
def onePage : SearchPage :=
  { totalElements := 3, last := true, numberOfElements := 3, empty := false,
    content := [{ body := "t1" }, { body := "t2" }, { body := "t3" }] }

/-- A search upstream whose first page is the last, with three items. -/
def onePageUp : SearchPayload → SearchPage := fun _ => onePage

/-! ### C3 -/

/-- C3: the requests of `_fetch_texts` are the payloads for consecutive
pages `1..m`; the first payload carries `page=1` and `rows=0`, and the
payload for any page `k ≥ 2` carries `page=k` and `rows` equal to the
first page's `totalElements` (echoed, never recomputed). -/
theorem search_request_fields (up : SearchPayload → SearchPage) (text : String)
    (sp : SearchParams) (fuel : Nat) :
    (∃ m, 1 ≤ m ∧ (_fetch_texts up text sp fuel).2
      = (List.range' 1 m).map (reqPayload text sp.full_compare sp.full_text_mode
          (firstTE up text sp.full_compare sp.full_text_mode))) ∧
    (reqPayload text sp.full_compare sp.full_text_mode
      (firstTE up text sp.full_compare sp.full_text_mode) 1).page = 1 ∧
    (reqPayload text sp.full_compare sp.full_text_mode
      (firstTE up text sp.full_compare sp.full_text_mode) 1).rows = 0 ∧
    (∀ k, 2 ≤ k →
      (reqPayload text sp.full_compare sp.full_text_mode
        (firstTE up text sp.full_compare sp.full_text_mode) k).page = k ∧
      (reqPayload text sp.full_compare sp.full_text_mode
        (firstTE up text sp.full_compare sp.full_text_mode) k).rows
        = firstTE up text sp.full_compare sp.full_text_mode) := by
  refine ⟨fetch_texts_log up text sp fuel, rfl, rfl, ?_⟩
  intro k hk
  rw [reqPayload_of_two_le _ _ _ _ _ hk]
  exact ⟨rfl, rfl⟩

/-- C3 witness at a concrete single-page upstream. -/
theorem search_request_fields_witness :
    (∃ m, 1 ≤ m ∧ (_fetch_texts onePageUp "t" DEFAULT_PARAMS 1).2
      = (List.range' 1 m).map (reqPayload "t" DEFAULT_PARAMS.full_compare
          DEFAULT_PARAMS.full_text_mode
          (firstTE onePageUp "t" DEFAULT_PARAMS.full_compare DEFAULT_PARAMS.full_text_mode))) ∧
    (reqPayload "t" DEFAULT_PARAMS.full_compare DEFAULT_PARAMS.full_text_mode
      (firstTE onePageUp "t" DEFAULT_PARAMS.full_compare DEFAULT_PARAMS.full_text_mode) 1).page
        = 1 ∧
    (reqPayload "t" DEFAULT_PARAMS.full_compare DEFAULT_PARAMS.full_text_mode
      (firstTE onePageUp "t" DEFAULT_PARAMS.full_compare DEFAULT_PARAMS.full_text_mode) 1).rows
        = 0 ∧
    (∀ k, 2 ≤ k →
      (reqPayload "t" DEFAULT_PARAMS.full_compare DEFAULT_PARAMS.full_text_mode
        (firstTE onePageUp "t" DEFAULT_PARAMS.full_compare DEFAULT_PARAMS.full_text_mode) k).page
          = k ∧
      (reqPayload "t" DEFAULT_PARAMS.full_compare DEFAULT_PARAMS.full_text_mode
        (firstTE onePageUp "t" DEFAULT_PARAMS.full_compare DEFAULT_PARAMS.full_text_mode) k).rows
          = firstTE onePageUp "t" DEFAULT_PARAMS.full_compare DEFAULT_PARAMS.full_text_mode) :=
  search_request_fields onePageUp "t" DEFAULT_PARAMS 1

/-! ### C10 -/

/-- C10: the caller-supplied `page` and `per_page` parameters are never
forwarded upstream — the outcome is unchanged under any values for them —
and the first request carries `page=1` while every request carries
`perPage=10` (the `_build_search_payload` defaults). -/
theorem page_per_page_not_forwarded (up : SearchPayload → SearchPage) (text : String)
    (p : UserParams) (fuel : Nat) :
    (∀ a b : Option Nat,
      get_texts up text { p with page := a, per_page := b } fuel
        = get_texts up text p fuel) ∧
    (∀ sp : SearchParams, ∀ a b : Nat,
      _fetch_texts up text { sp with page := a, per_page := b } fuel
        = _fetch_texts up text sp fuel) ∧
    (∀ sp : SearchParams,
      ((_fetch_texts up text sp fuel).2).head?
          = some (firstPagePayload text sp.full_compare sp.full_text_mode) ∧
      (firstPagePayload text sp.full_compare sp.full_text_mode).page = 1 ∧
      ∀ q ∈ (_fetch_texts up text sp fuel).2, q.perPage = 10) := by
  refine ⟨fun a b => rfl, fun sp a b => rfl, fun sp => ?_⟩
  obtain ⟨m, hm1, hm⟩ := fetch_texts_log up text sp fuel
  refine ⟨?_, rfl, ?_⟩
  · rw [hm]
    obtain ⟨m', rfl⟩ : ∃ m', m = m' + 1 := ⟨m - 1, by omega⟩
    rw [List.range'_succ, List.map_cons]
    rfl
  · intro q hq
    rw [hm] at hq
    simp only [List.mem_map] at hq
    obtain ⟨k, hk, rfl⟩ := hq
    rcases Nat.lt_or_ge k 2 with h2 | h2
    · have hk1 : 1 ≤ k := (List.mem_range'_1.mp hk).1
      have : k = 1 := by omega
      subst this
      rfl
    · rw [reqPayload_of_two_le _ _ _ _ _ h2]
      rfl

/-- C10 witness: concrete caller parameters `page=5`, `per_page=99` change
nothing, and concrete request logs use `page=1`, `perPage=10`. -/
theorem page_per_page_not_forwarded_witness :
    (∀ a b : Option Nat,
      get_texts onePageUp "t" { ({} : UserParams) with page := a, per_page := b } 1
        = get_texts onePageUp "t" ({} : UserParams) 1) ∧
    (∀ sp : SearchParams, ∀ a b : Nat,
      _fetch_texts onePageUp "t" { sp with page := a, per_page := b } 1
        = _fetch_texts onePageUp "t" sp 1) ∧
    (∀ sp : SearchParams,
      ((_fetch_texts onePageUp "t" sp 1).2).head?
          = some (firstPagePayload "t" sp.full_compare sp.full_text_mode) ∧
      (firstPagePayload "t" sp.full_compare sp.full_text_mode).page = 1 ∧
      ∀ q ∈ (_fetch_texts onePageUp "t" sp 1).2, q.perPage = 10) :=
  page_per_page_not_forwarded onePageUp "t" {} 1

/-! ### C4 -/

/-- The pages `_fetch_texts` returns are empty exactly when the first page
reported `empty=true`. -/
lemma fetch_texts_results_empty_iff (up : SearchPayload → SearchPage) (text : String)
    (sp : SearchParams) (fuel : Nat) (res : List SearchPage) (c : Nat)
    (h : (_fetch_texts up text sp fuel).1 = some (res, c)) :
    (res = [] ↔ (firstResp up text sp.full_compare sp.full_text_mode).empty = true) := by
  rw [fetch_texts_cases] at h
  by_cases he : (firstResp up text sp.full_compare sp.full_text_mode).empty = true
  · rw [if_pos he] at h
    simp only [Option.some.injEq, Prod.mk.injEq] at h
    simp [← h.1, he]
  · rw [if_neg he] at h
    by_cases hl : (firstResp up text sp.full_compare sp.full_text_mode).last = true
    · rw [if_pos hl] at h
      simp only [Option.some.injEq, Prod.mk.injEq] at h
      simp [← h.1, he]
    · rw [if_neg hl] at h
      simp only [Option.map_eq_some'] at h
      obtain ⟨r', hr', hfr⟩ := h
      obtain ⟨tail, rfl⟩ := fetchLoop_res_prefix up text sp.full_compare sp.full_text_mode
        _ _ fuel _ 2 _ _ r' hr'
      have : res = [firstResp up text sp.full_compare sp.full_text_mode] ++ tail := by
        have := congrArg Prod.fst hfr
        simpa using this.symm
      simp [this, he]

/-- C4: `get_texts` raises `TextsNotFoundError` exactly when the first page
reports `empty=true`; a non-empty first page always accumulates at least
one page and never raises it, whatever the other options. -/
theorem texts_not_found_iff (up : SearchPayload → SearchPage) (text : String)
    (p : UserParams) (fuel : Nat) (r : Except TextsError TextsResult)
    (hret : get_texts up text p fuel = some r) :
    (r = Except.error TextsError.textsNotFound
      ↔ (firstResp up text (mergeParams p).full_compare
          (mergeParams p).full_text_mode).empty = true) ∧
    ((firstResp up text (mergeParams p).full_compare
        (mergeParams p).full_text_mode).empty = false →
      ∃ res c, (_fetch_texts up text (mergeParams p) fuel).1 = some (res, c) ∧
        1 ≤ res.length) := by
  rcases hf : (_fetch_texts up text (mergeParams p) fuel).1 with _ | rc
  · exfalso
    simp [get_texts, hf] at hret
  · obtain ⟨res, c⟩ := rc
    have hiff := fetch_texts_results_empty_iff up text (mergeParams p) fuel res c hf
    by_cases hres : res = []
    · have hz : res.length = 0 := by simp [hres]
      simp [get_texts, hf, hz] at hret
      constructor
      · rw [← hret]
        simp [hiff.mp hres]
      · intro hcontra
        rw [hiff.mp hres] at hcontra
        exact absurd hcontra (by simp)
    · have hz : ¬ res.length = 0 := by simpa [List.length_eq_zero] using hres
      have hemp : ¬ (firstResp up text (mergeParams p).full_compare
          (mergeParams p).full_text_mode).empty = true := fun hc => hres (hiff.mpr hc)
      constructor
      · by_cases hj : (mergeParams p).return_full_json = true
        · simp [get_texts, hf, hz, hj] at hret
          rw [← hret]
          simp [hemp]
        · simp [get_texts, hf, hz, hj] at hret
          rw [← hret]
          simp [hemp]
      · intro _
        exact ⟨res, c, rfl, by omega⟩

/-- C4 witness: a non-empty single-page search neither raises nor yields an
empty accumulation. -/
theorem texts_not_found_iff_witness :
    ((Except.ok (TextsResult.texts ["t1", "t2", "t3"])
        = Except.error TextsError.textsNotFound
      ↔ (firstResp onePageUp "t" (mergeParams {}).full_compare
          (mergeParams {}).full_text_mode).empty = true) ∧
    ((firstResp onePageUp "t" (mergeParams {}).full_compare
        (mergeParams {}).full_text_mode).empty = false →
      ∃ res c, (_fetch_texts onePageUp "t" (mergeParams {}) 1).1 = some (res, c) ∧
        1 ≤ res.length)) :=
  texts_not_found_iff onePageUp "t" {} 1
    (Except.ok (TextsResult.texts ["t1", "t2", "t3"])) rfl

/-! ### C1 -/

/-- Full characterization of the pagination loop when page `N` is the first
to report `last=true`: starting at page `p` with the state reached after
pages `1..p-1`, the loop returns the pages and payloads `1..M`, where `M`
is the first index at which the accumulated element count reaches `count`
or which equals `N`, whichever comes first. -/
lemma fetchLoop_last_spec (up : SearchPayload → SearchPage) (text : String)
    (fc ftm : Bool) (te count N : Nat)
    (hNlast : (pageResp up text fc ftm te N).last = true)
    (hbefore : ∀ m, 1 ≤ m → m < N → (pageResp up text fc ftm te m).last = false) :
    ∀ fuel p, 2 ≤ p → p ≤ N → N + 1 ≤ fuel + p →
    ∃ M, p - 1 ≤ M ∧ M ≤ N ∧
      fetchLoop up text fc ftm te count fuel (accElems up text fc ftm te (p - 1)) p
          ((List.range' 1 (p - 1)).map (pageResp up text fc ftm te))
          ((List.range' 1 (p - 1)).map (reqPayload text fc ftm te))
        = (some ((List.range' 1 M).map (pageResp up text fc ftm te)),
           (List.range' 1 M).map (reqPayload text fc ftm te)) ∧
      (count ≤ accElems up text fc ftm te M ∨ M = N) ∧
      ∀ m, p - 1 ≤ m → m < M → accElems up text fc ftm te m < count ∧ m ≠ N := by
  intro fuel
  induction fuel with
  | zero =>
    intro p h2 hpN hfuel
    exact absurd hpN (by omega)
  | succ f ih =>
    intro p h2 hpN hfuel
    obtain ⟨q, rfl⟩ : ∃ q, p = q + 2 := ⟨p - 2, by omega⟩
    have e : q + 2 - 1 = q + 1 := rfl
    rw [e]
    by_cases hc : accElems up text fc ftm te (q + 1) < count
    · rw [fetchLoop_step up text fc ftm te count f _ _ _ _ hc]
      have hpr : up (subsPayload text fc ftm te (q + 2)) = pageResp up text fc ftm te (q + 2) :=
        (congrArg up (reqPayload_of_two_le text fc ftm te (q + 2) (by omega))).symm
      rw [hpr]
      have hacc : accElems up text fc ftm te (q + 1)
          + (pageResp up text fc ftm te (q + 2)).numberOfElements
          = accElems up text fc ftm te (q + 2) := rfl
      have hr : List.range' 1 (q + 2) = List.range' 1 (q + 1) ++ [q + 2] := by
        rw [List.range'_1_concat]
        simp [show 1 + (q + 1) = q + 2 from by omega]
      have hresape : (List.range' 1 (q + 1)).map (pageResp up text fc ftm te)
          ++ [pageResp up text fc ftm te (q + 2)]
          = (List.range' 1 (q + 2)).map (pageResp up text fc ftm te) := by
        rw [hr, List.map_append]
        simp
      have hlogape : (List.range' 1 (q + 1)).map (reqPayload text fc ftm te)
          ++ [subsPayload text fc ftm te (q + 2)]
          = (List.range' 1 (q + 2)).map (reqPayload text fc ftm te) := by
        rw [hr, List.map_append]
        simp [reqPayload_of_two_le text fc ftm te (q + 2) (by omega)]
      by_cases hl : (pageResp up text fc ftm te (q + 2)).last = true
      · have hqN : q + 2 = N := by
          by_contra hne
          have hlt : q + 2 < N := by omega
          rw [hbefore (q + 2) (by omega) hlt] at hl
          exact Bool.noConfusion hl
        refine ⟨q + 2, by omega, by omega, ?_, Or.inr hqN, ?_⟩
        · rw [if_pos hl, hresape, hlogape]
        · intro m hm1 hm2
          have hm : m = q + 1 := by omega
          subst hm
          exact ⟨hc, by omega⟩
      · have hqltN : q + 2 < N := by
          rcases Nat.lt_or_ge (q + 2) N with h | h
          · exact h
          · exfalso
            have heqN : q + 2 = N := by omega
            rw [heqN, hNlast] at hl
            exact hl rfl
        rw [if_neg hl, hacc, hresape, hlogape]
        obtain ⟨M, hM1, hM2, heq, hcond, hmin⟩ := ih (q + 3) (by omega) (by omega) (by omega)
        refine ⟨M, by omega, hM2, ?_, hcond, ?_⟩
        · exact heq
        · intro m hm1 hm2
          rcases Nat.eq_or_lt_of_le hm1 with hEq | hlt
          · have hm : m = q + 1 := by omega
            subst hm
            exact ⟨hc, by omega⟩
          · exact hmin m (by omega) hm2
    · rw [fetchLoop_exit up text fc ftm te count (f + 1) _ _ _ _ hc]
      refine ⟨q + 1, le_refl _, by omega, rfl, Or.inl (by omega), ?_⟩
      intro m hm1 hm2
      exact absurd hm2 (by omega)

/-- C1 (amended for a non-empty first page): when page `N` is the first to
report `last=true` and the first page is not empty, `_fetch_texts` requests
exactly pages `1..M` in increasing order, stopping at the first page at
which the accumulated `numberOfElements` reaches the effective target or at
page `N`, whichever comes first; no page beyond `N` is ever requested. -/
theorem pagination_stops_at_last_or_target (up : SearchPayload → SearchPage)
    (text : String) (sp : SearchParams) (fuel N te tgt : Nat)
    (hte : te = firstTE up text sp.full_compare sp.full_text_mode)
    (htgt : tgt = (if sp.all_texts = true then te else sp.count))
    (hN1 : 1 ≤ N)
    (hNlast : (pageResp up text sp.full_compare sp.full_text_mode te N).last = true)
    (hbefore : ∀ m, 1 ≤ m → m < N →
      (pageResp up text sp.full_compare sp.full_text_mode te m).last = false)
    (hnotempty : (firstResp up text sp.full_compare sp.full_text_mode).empty = false)
    (hfuel : N ≤ fuel) :
    ∃ M, 1 ≤ M ∧ M ≤ N ∧
      (_fetch_texts up text sp fuel).2
        = (List.range' 1 M).map (reqPayload text sp.full_compare sp.full_text_mode te) ∧
      (∃ c, (_fetch_texts up text sp fuel).1
        = some ((List.range' 1 M).map
            (pageResp up text sp.full_compare sp.full_text_mode te), c)) ∧
      (tgt ≤ accElems up text sp.full_compare sp.full_text_mode te M ∨ M = N) ∧
      ∀ m, 1 ≤ m → m < M →
        accElems up text sp.full_compare sp.full_text_mode te m < tgt ∧ m ≠ N := by
  subst hte
  subst htgt
  rw [fetch_texts_cases]
  have hne' : ¬ (firstResp up text sp.full_compare sp.full_text_mode).empty = true := by
    simp [hnotempty]
  rw [if_neg hne']
  have hp1 : pageResp up text sp.full_compare sp.full_text_mode
      (firstTE up text sp.full_compare sp.full_text_mode) 1
      = firstResp up text sp.full_compare sp.full_text_mode := rfl
  by_cases hl1 : (firstResp up text sp.full_compare sp.full_text_mode).last = true
  · have hN : N = 1 := by
      by_contra h
      have hlt : 1 < N := by omega
      have hb := hbefore 1 (le_refl 1) hlt
      rw [hp1, hl1] at hb
      exact Bool.noConfusion hb
    rw [if_pos hl1]
    refine ⟨1, le_refl 1, by omega, ?_, ⟨sp.count, ?_⟩, Or.inr hN.symm, ?_⟩
    · simp [reqPayload]
    · simp [pageResp, reqPayload, firstResp]
    · intro m hm1 hm2
      exact absurd hm2 (by omega)
  · have hN2 : 2 ≤ N := by
      by_contra h
      have hNe : N = 1 := by omega
      rw [hNe, hp1] at hNlast
      exact hl1 hNlast
    rw [if_neg hl1]
    obtain ⟨M, hM1, hM2, heq, hcond, hmin⟩ :=
      fetchLoop_last_spec up text sp.full_compare sp.full_text_mode
        (firstTE up text sp.full_compare sp.full_text_mode)
        (if sp.all_texts = true then firstTE up text sp.full_compare sp.full_text_mode
         else sp.count)
        N hNlast hbefore fuel 2 (le_refl 2) hN2 (by omega)
    have ha1 : accElems up text sp.full_compare sp.full_text_mode
        (firstTE up text sp.full_compare sp.full_text_mode) 1
        = (firstResp up text sp.full_compare sp.full_text_mode).numberOfElements := by
      simp [accElems, hp1]
    have hacc1 : (List.range' 1 1).map (pageResp up text sp.full_compare sp.full_text_mode
        (firstTE up text sp.full_compare sp.full_text_mode))
        = [firstResp up text sp.full_compare sp.full_text_mode] := by
      simp [hp1]
    have hlog1 : (List.range' 1 1).map (reqPayload text sp.full_compare sp.full_text_mode
        (firstTE up text sp.full_compare sp.full_text_mode))
        = [firstPagePayload text sp.full_compare sp.full_text_mode] := by
      simp [reqPayload]
    rw [show (2 : Nat) - 1 = 1 from rfl, ha1, hacc1, hlog1] at heq
    rw [heq]
    refine ⟨M, by omega, hM2, rfl, ⟨_, rfl⟩, hcond, ?_⟩
    intro m hm1 hm2
    exact hmin m (by omega) hm2

/-- First page of the C1 counterexample: `empty=true` but `last=false`. -/
def pageEmptyNoLast : SearchPage :=
  { totalElements := 7, last := false, numberOfElements := 0, empty := true, content := [] }

/-- Second page of the C1 counterexample: the first `last=true` page. -/
def pageLastC1 : SearchPage :=
  { totalElements := 7, last := true, numberOfElements := 0, empty := false, content := [] }

/-- A search upstream whose first page is empty but not last. -/
def emptyFirstUp : SearchPayload → SearchPage :=
  fun q => if q.page = 1 then pageEmptyNoLast else pageLastC1

/-- C1 counterexample: with a first page reporting `empty=true` but
`last=false` (first `last=true` at page `N=2`, target 10), aggregation
stops after the single first request, which is neither page `N` nor a page
reaching the target — refuting the claimed stop condition as stated. -/
theorem pagination_empty_first_page_counterexample :
    (pageResp emptyFirstUp "t" false false 7 2).last = true ∧
    (pageResp emptyFirstUp "t" false false 7 1).last = false ∧
    (firstResp emptyFirstUp "t" false false).empty = true ∧
    ¬ ∃ M, 1 ≤ M ∧ M ≤ 2 ∧
        (_fetch_texts emptyFirstUp "t" DEFAULT_PARAMS 5).2
          = (List.range' 1 M).map (reqPayload "t" false false 7) ∧
        (10 ≤ accElems emptyFirstUp "t" false false 7 M ∨ M = 2) ∧
        ∀ m, 1 ≤ m → m < M →
          accElems emptyFirstUp "t" false false 7 m < 10 ∧ m ≠ 2 := by
  refine ⟨rfl, rfl, rfl, ?_⟩
  rintro ⟨M, hM1, hM2, hlog, hcond, hmin⟩
  have hL1 : ((_fetch_texts emptyFirstUp "t" DEFAULT_PARAMS 5).2).length = 1 := rfl
  have hLM := congrArg List.length hlog
  rw [hL1, List.length_map, List.length_range'] at hLM
  subst hLM
  rcases hcond with h | h
  · exact absurd h (by decide)
  · exact absurd h (by decide)

/-- One of the non-last pages of the C1 witness upstream. -/
def pageMidW : SearchPage :=
  { totalElements := 9, last := false, numberOfElements := 3, empty := false, content := [] }

/-- The last page of the C1 witness upstream. -/
def pageLastW : SearchPage :=
  { totalElements := 9, last := true, numberOfElements := 3, empty := false, content := [] }

/-- A search upstream with three pages, the third being the last. -/
def threePageUp : SearchPayload → SearchPage :=
  fun q => if q.page < 3 then pageMidW else pageLastW

/-- C1 witness: three pages of three elements each, target 10 — the loop
requests pages 1, 2, 3 and stops exactly at the last page `N=3`. -/
theorem pagination_stops_witness :
    ∃ M, 1 ≤ M ∧ M ≤ 3 ∧
      (_fetch_texts threePageUp "t" DEFAULT_PARAMS 3).2
        = (List.range' 1 M).map (reqPayload "t" DEFAULT_PARAMS.full_compare
            DEFAULT_PARAMS.full_text_mode 9) ∧
      (∃ c, (_fetch_texts threePageUp "t" DEFAULT_PARAMS 3).1
        = some ((List.range' 1 M).map
            (pageResp threePageUp "t" DEFAULT_PARAMS.full_compare
              DEFAULT_PARAMS.full_text_mode 9), c)) ∧
      (10 ≤ accElems threePageUp "t" DEFAULT_PARAMS.full_compare
          DEFAULT_PARAMS.full_text_mode 9 M ∨ M = 3) ∧
      ∀ m, 1 ≤ m → m < M →
        accElems threePageUp "t" DEFAULT_PARAMS.full_compare
          DEFAULT_PARAMS.full_text_mode 9 m < 10 ∧ m ≠ 3 :=
  pagination_stops_at_last_or_target threePageUp "t" DEFAULT_PARAMS 3 3 9 10
    rfl rfl (by omega) rfl
    (by
      intro m h1 h3
      interval_cases m <;> rfl)
    rfl (le_refl 3)

/-! ### C2 -/

/-- The count returned by `_fetch_texts` is the first page's
`totalElements` exactly when `all_texts` is set and the first page is
neither empty nor last; otherwise it is the caller's `count`. -/
lemma fetch_texts_count_char (up : SearchPayload → SearchPage) (text : String)
    (sp : SearchParams) (fuel : Nat) (res : List SearchPage) (c : Nat)
    (h : (_fetch_texts up text sp fuel).1 = some (res, c)) :
    c = (if (firstResp up text sp.full_compare sp.full_text_mode).empty = false
          ∧ (firstResp up text sp.full_compare sp.full_text_mode).last = false
          ∧ sp.all_texts = true
         then firstTE up text sp.full_compare sp.full_text_mode
         else sp.count) := by
  rw [fetch_texts_cases] at h
  by_cases he : (firstResp up text sp.full_compare sp.full_text_mode).empty = true
  · rw [if_pos he] at h
    simp only [Option.some.injEq, Prod.mk.injEq] at h
    simp [← h.2, he]
  · rw [if_neg he] at h
    have he2 : (firstResp up text sp.full_compare sp.full_text_mode).empty = false := by
      simpa using he
    by_cases hl : (firstResp up text sp.full_compare sp.full_text_mode).last = true
    · rw [if_pos hl] at h
      simp only [Option.some.injEq, Prod.mk.injEq] at h
      simp [← h.2, hl]
    · rw [if_neg hl] at h
      have hl2 : (firstResp up text sp.full_compare sp.full_text_mode).last = false := by
        simpa using hl
      simp only [Option.map_eq_some'] at h
      obtain ⟨r', _, hfr⟩ := h
      have hc : c = (if sp.all_texts = true
          then firstTE up text sp.full_compare sp.full_text_mode else sp.count) := by
        have := congrArg Prod.snd hfr
        simpa using this.symm
      rw [hc]
      simp [he2, hl2]

/-- C2: with a non-empty accumulation and `return_full_json` off,
`get_texts` returns the bodies of all content items, pages in fetch order
and items in page order, truncated to the effective target count — the
first page's `totalElements` when `all_texts` is set and the first page is
neither empty nor last, the caller's `count` otherwise; the result never
exceeds that target. -/
theorem flattened_truncated (up : SearchPayload → SearchPage) (text : String)
    (p : UserParams) (fuel : Nat) (res : List SearchPage) (c : Nat)
    (hfetch : (_fetch_texts up text (mergeParams p) fuel).1 = some (res, c))
    (hne : res ≠ [])
    (hjson : (mergeParams p).return_full_json = false) :
    get_texts up text p fuel
      = some (Except.ok (TextsResult.texts
          ((res.flatMap fun page => page.content.map ContentItem.body).take c))) ∧
    c = (if (firstResp up text (mergeParams p).full_compare
            (mergeParams p).full_text_mode).empty = false
          ∧ (firstResp up text (mergeParams p).full_compare
            (mergeParams p).full_text_mode).last = false
          ∧ (mergeParams p).all_texts = true
         then firstTE up text (mergeParams p).full_compare (mergeParams p).full_text_mode
         else (mergeParams p).count) ∧
    ((res.flatMap fun page => page.content.map ContentItem.body).take c).length ≤ c := by
  have hz : ¬ res.length = 0 := by simpa [List.length_eq_zero] using hne
  refine ⟨?_, fetch_texts_count_char up text (mergeParams p) fuel res c hfetch,
    List.length_take_le _ _⟩
  simp [get_texts, hfetch, hz, hjson]

/-- C2 witness at the concrete single-page upstream: three bodies, target
10, no truncation needed. -/
theorem flattened_truncated_witness :
    get_texts onePageUp "t" {} 1
      = some (Except.ok (TextsResult.texts
          (([onePage].flatMap fun page => page.content.map ContentItem.body).take 10))) ∧
    (10 : Nat) = (if (firstResp onePageUp "t" (mergeParams {}).full_compare
            (mergeParams {}).full_text_mode).empty = false
          ∧ (firstResp onePageUp "t" (mergeParams {}).full_compare
            (mergeParams {}).full_text_mode).last = false
          ∧ (mergeParams {}).all_texts = true
         then firstTE onePageUp "t" (mergeParams {}).full_compare
            (mergeParams {}).full_text_mode
         else (mergeParams ({} : UserParams)).count) ∧
    (([onePage].flatMap fun page => page.content.map ContentItem.body).take 10).length
        ≤ 10 :=
  flattened_truncated onePageUp "t" {} 1 [onePage] 10 rfl (by decide) rfl

/-! ### C8 -/

/-- C8 counterexample: a successful lemma-fallback retry with
`replace_tilde` on substitutes each item's `srcWord` (`s8` here), not the
lemma (`lem8`): the claim's prediction `plem8q` differs from the actual
returned string `ps8q`. -/
theorem tilde_not_lemma_counterexample :
    (get_word tildeUp tildeAl id "w8" "udm" true false true).1
        = Except.ok (WordResult.translations ["ps8q"]) ∧
    tildeUp "w8" 1 = [] ∧
    tildeAl "w8" = "lem8" ∧
    tildeUp "lem8" 1 = [{ body := "p~q", srcWord := "s8" }] ∧
    replaceTildeStr (tildeAl "w8") (id "p~q") = "plem8q" ∧
    ("ps8q" : String) ≠ "plem8q" := by
  refine ⟨rfl, rfl, rfl, rfl, rfl, by decide⟩

/-- C8 amended: when the lemma-fallback retry succeeds and `replace_tilde`
is on, the retry response is processed with the lemma in place of the
original word, but the string substituted for each `~` is the item's own
`srcWord` field — neither the lemma nor the original word; the processing
result does not depend on the word argument at all. -/
theorem tilde_after_fallback_uses_srcWord (up : String → Nat → DictResponse)
    (al strip : String → String) (word lang : String)
    (L : Language) (resp2 : DictResponse)
    (hL : LANGUAGES lang = some L)
    (hempty : up word L.id = [])
    (hlem : al word ≠ "")
    (hresp2 : up (al word) L.id = resp2)
    (hne : resp2 ≠ []) :
    get_word up al strip word lang true false true
      = (Except.ok (WordResult.translations
          (resp2.map fun item => replaceTildeStr item.srcWord (strip item.body))),
         [(word, L.id), (al word, L.id)]) ∧
    _process_response strip resp2 (al word) true = _process_response strip resp2 word true := by
  have h2 : resp2.isEmpty = false := by simp [hne]
  refine ⟨?_, rfl⟩
  simp [get_word, hL, hempty, hlem, hresp2, h2, _process_response]

/-- C8 amended witness at the concrete fallback instance. -/
theorem tilde_after_fallback_uses_srcWord_witness :
    get_word tildeUp tildeAl id "w8" "udm" true false true
      = (Except.ok (WordResult.translations
          (([{ body := "p~q", srcWord := "s8" }] : DictResponse).map fun item =>
            replaceTildeStr item.srcWord (id item.body))),
         [("w8", (1 : Nat)), (tildeAl "w8", (1 : Nat))]) ∧
    _process_response id [{ body := "p~q", srcWord := "s8" }] (tildeAl "w8") true
      = _process_response id [{ body := "p~q", srcWord := "s8" }] "w8" true :=
  tilde_after_fallback_uses_srcWord tildeUp tildeAl id "w8" "udm"
    { id := 1, code := "udm" } [{ body := "p~q", srcWord := "s8" }]
    rfl rfl (by decide) rfl (by decide)

/-! ### C9 -/

/-- C9: a repeated `get_word` call with the identical argument tuple, on the
same client, returns the identical result and issues no network request —
served from the bounded LRU cache (capacity 128) keyed by the argument
tuple. -/
theorem repeated_lookup_cached (up : String → Nat → DictResponse)
    (al strip : String → String) (c : Cache) (k : WordKey) (v : WordResult)
    (h1 : (get_word_cached up al strip c k).1 = Except.ok v) :
    (get_word_cached up al strip (get_word_cached up al strip c k).2.2 k).1
        = Except.ok v ∧
    (get_word_cached up al strip (get_word_cached up al strip c k).2.2 k).2.1 = [] ∧
    CACHE_MAXSIZE = 128 := by
  rcases hc : cacheLookup c k with _ | w
  · rcases hw : get_word up al strip k.word k.lang k.replace_tilde
        k.return_full_json k.lemmatize_if_not_found with ⟨r, log⟩
    rcases r with e | w
    · exfalso
      have : (get_word_cached up al strip c k).1 = Except.error e := by
        simp [get_word_cached, hc, hw]
      rw [this] at h1
      exact Except.noConfusion h1
    · have hv : w = v := by
        have : (get_word_cached up al strip c k).1 = Except.ok w := by
          simp [get_word_cached, hc, hw]
        rw [this] at h1
        exact Except.ok.inj h1
      rw [hv] at hw
      have hst : (get_word_cached up al strip c k).2.2 = cacheInsert c k v := by
        simp [get_word_cached, hc, hw]
      rw [hst]
      refine ⟨?_, ?_, rfl⟩ <;> simp [get_word_cached, cacheLookup_insert]
  · have hv : w = v := by
      have : (get_word_cached up al strip c k).1 = Except.ok w := by
        simp [get_word_cached, hc]
      rw [this] at h1
      exact Except.ok.inj h1
    rw [hv] at hc
    have hst : (get_word_cached up al strip c k).2.2 = cacheTouch c k := by
      simp [get_word_cached, hc]
    have hl2 : cacheLookup (cacheTouch c k) k = some v := by
      rw [cacheLookup_touch, hc]
    rw [hst]
    refine ⟨?_, ?_, rfl⟩ <;> simp [get_word_cached, hl2]

/-- C9 witness: first call on an empty cache succeeds and fills the cache;
the repeated call is a pure cache hit. -/
theorem repeated_lookup_cached_witness :
    (get_word_cached constUp emptyAl id (get_word_cached constUp emptyAl id [] constKey).2.2
        constKey).1 = Except.ok (WordResult.translations ["b"]) ∧
    (get_word_cached constUp emptyAl id (get_word_cached constUp emptyAl id [] constKey).2.2
        constKey).2.1 = [] ∧
    CACHE_MAXSIZE = 128 :=
  repeated_lookup_cached constUp emptyAl id [] constKey
    (WordResult.translations ["b"]) rfl

end UdmCorpus
